import Mathlib

/-!
Verification of the CodeVigil staged risk-triage and retrieval-augmented
remediation pipeline.

The definitions below are a shallow embedding of the Python sources:

* `src/backend/core/ai/analyzer.py` — the three-stage AI pipeline
  (`AIAnalyzer._stage1_batch_risk_scoring`,
  `AIAnalyzer._parse_stage1_scoring_response`,
  `AIAnalyzer.analyze_files_strict_three_stage`,
  `AIAnalyzer._stage2_detailed_vulnerability_analysis`,
  `AIAnalyzer._stage3_cve_enhanced_diff_generation`,
  `AIAnalyzer._enhance_with_cve_and_generate_diff`,
  `AIAnalyzer._generate_cve_enhanced_remediation`).
* `src/backend/core/rag/cve_knowledge_base.py` — the hybrid knowledge
  retrieval engine (`CVEfixesKnowledgeBase.search_similar_vulnerabilities`,
  `_vector_search`, `_text_search`, `add_to_vector_index`,
  `_save_vector_index`).

Numeric scores and confidences are embedded as rationals (`ℚ`).  The
external reasoning service (`AIAnalyzer._call_ai_api`) is modelled as an
oracle: for each Stage 1 batch it either raises (`gatewayError`), returns
a response whose JSON extraction/decoding fails (`parseFailure`), or
returns a decoded list of score entries (`parsed`).  A `risk_score` field
whose `float(...)` conversion would raise is subsumed by `parseFailure`,
because the surrounding `try` in `_parse_stage1_scoring_response` catches
it and degrades the whole batch.
-/

namespace CodeVigil

/-! ## Data model (dataclasses of `analyzer.py`) -/

/-- `VulnerabilityInfo` dataclass: one finding inside a file. -/
structure VulnerabilityInfo where
  title : String
  severity : String
  cweId : Option String
  description : String
  location : List (String × String)
  codeSnippet : String
  impact : String
  remediation : String
  confidence : ℚ
  deriving DecidableEq

/-- `CodeFixSuggestion` dataclass. -/
structure CodeFixSuggestion where
  description : String
  originalCode : String
  fixedCode : String
  startLine : ℤ
  endLine : ℤ
  explanation : String
  deriving DecidableEq

/-- `FileAnalysisInput` dataclass.  The prompt-only fields
(`git_commits`, `ast_features`, `existing_issues`) are omitted: they only
feed the text of the prompt sent to the reasoning service, which is
opaque in this embedding. -/
structure FileAnalysisInput where
  filePath : String
  content : String
  language : String
  deriving DecidableEq

/-- `AIAnalysisResult` dataclass. -/
structure AIAnalysisResult where
  filePath : String
  aiRiskScore : ℚ
  vulnerabilities : List VulnerabilityInfo
  fixSuggestions : List CodeFixSuggestion
  confidence : ℚ
  analysisReasoning : String
  overallRisk : String
  summary : String
  analysisTime : ℚ
  deriving DecidableEq

/-! ## Stable sorting

`list.sort(key=..., reverse=True)` / `sorted(..., key=..., reverse=True)`
in the source are stable descending sorts.  `insertSorted`/`sortBy` below
is a stable insertion sort over an arbitrary boolean preorder `pord`
(`pord a b` = "a may come no later than b"); with
`pord a b := decide (key b ≤ key a)` it computes exactly the stable
descending sort by `key`. -/

/-- Insert `x` before the first element `y` with `pord x y`. -/
def insertSorted (pord : α → α → Bool) (x : α) : List α → List α
  | [] => [x]
  | y :: ys => if pord x y then x :: y :: ys else y :: insertSorted pord x ys

/-- Stable insertion sort with respect to `pord`. -/
def sortBy (pord : α → α → Bool) : List α → List α
  | [] => []
  | x :: xs => insertSorted pord x (sortBy pord xs)

theorem length_insertSorted (pord : α → α → Bool) (x : α) :
    ∀ l : List α, (insertSorted pord x l).length = l.length + 1 := by
  intro l
  induction l with
  | nil => rfl
  | cons y ys ih =>
    by_cases h : pord x y = true
    · simp [insertSorted, h]
    · simp [insertSorted, h, ih]

theorem length_sortBy (pord : α → α → Bool) :
    ∀ l : List α, (sortBy pord l).length = l.length := by
  intro l
  induction l with
  | nil => rfl
  | cons x xs ih => simp [sortBy, length_insertSorted, ih]

theorem mem_insertSorted (pord : α → α → Bool) (x a : α) :
    ∀ l : List α, a ∈ insertSorted pord x l ↔ a = x ∨ a ∈ l := by
  intro l
  induction l with
  | nil => simp [insertSorted]
  | cons y ys ih =>
    by_cases h : pord x y = true
    · simp [insertSorted, h]
    · simp [insertSorted, h, ih]
      tauto

theorem mem_sortBy (pord : α → α → Bool) (a : α) :
    ∀ l : List α, a ∈ sortBy pord l ↔ a ∈ l := by
  intro l
  induction l with
  | nil => simp [sortBy]
  | cons x xs ih => simp [sortBy, mem_insertSorted, ih]

theorem any_sortBy (pord : α → α → Bool) (f : α → Bool) (l : List α) :
    (sortBy pord l).any f = l.any f := by
  rw [Bool.eq_iff_iff]
  simp only [List.any_eq_true, mem_sortBy]

/-- `insertSorted` preserves pairwise `pord`-sortedness, given that
`pord` is total and transitive. -/
theorem pairwise_insertSorted (pord : α → α → Bool)
    (htot : ∀ a b, pord a b = true ∨ pord b a = true)
    (htrans : ∀ a b c, pord a b = true → pord b c = true → pord a c = true)
    (x : α) :
    ∀ l : List α, l.Pairwise (fun a b => pord a b = true) →
      (insertSorted pord x l).Pairwise (fun a b => pord a b = true) := by
  intro l
  induction l with
  | nil => intro _; simp [insertSorted]
  | cons y ys ih =>
    intro hp
    rcases List.pairwise_cons.mp hp with ⟨hy, hys⟩
    by_cases h : pord x y = true
    · rw [insertSorted, if_pos h]
      refine List.pairwise_cons.mpr ⟨?_, hp⟩
      intro b hb
      rcases List.mem_cons.mp hb with rfl | hb
      · exact h
      · exact htrans x y b h (hy b hb)
    · rw [insertSorted, if_neg h]
      refine List.pairwise_cons.mpr ⟨?_, ih hys⟩
      intro b hb
      rcases (mem_insertSorted pord x b ys).mp hb with rfl | hb
      · exact (htot b y).resolve_left (by simp_all)
      · exact hy b hb

/-- `sortBy` produces a pairwise `pord`-sorted list, given that `pord`
is total and transitive. -/
theorem pairwise_sortBy (pord : α → α → Bool)
    (htot : ∀ a b, pord a b = true ∨ pord b a = true)
    (htrans : ∀ a b c, pord a b = true → pord b c = true → pord a c = true) :
    ∀ l : List α, (sortBy pord l).Pairwise (fun a b => pord a b = true) := by
  intro l
  induction l with
  | nil => simp [sortBy]
  | cons x xs ih => exact pairwise_insertSorted pord htot htrans x _ ih

/-! ## Stage 1 — batched risk scoring

Embedding of `AIAnalyzer._stage1_batch_risk_scoring` and
`AIAnalyzer._parse_stage1_scoring_response`
(`src/backend/core/ai/analyzer.py` lines 1275–1467). -/

/-- One element of the decoded `batch_risk_scores` JSON array.  Each
field is optional, matching `score_data.get(...)` with its default. -/
structure ScoreEntry where
  filePath : String
  riskScore : Option ℚ
  confidence : Option ℚ
  riskReasoning : Option String
  riskLevel : Option String
  deriving DecidableEq

/-- Outcome of one Stage 1 batch call to the reasoning gateway:
`_call_ai_api` raised (`gatewayError`), the response could not be decoded
into `batch_risk_scores` (`parseFailure`), or it decoded into a list of
score entries (`parsed`). -/
inductive Stage1Response where
  | gatewayError
  | parseFailure
  | parsed (scores : List ScoreEntry)
  deriving DecidableEq

/-- Result built for a response entry whose `file_path` is in the batch
(`analyzer.py` lines 1417–1428). -/
def parsedScoreResult (e : ScoreEntry) : AIAnalysisResult :=
  { filePath := e.filePath
    aiRiskScore := e.riskScore.getD 50
    vulnerabilities := []
    fixSuggestions := []
    confidence := e.confidence.getD (1/2)
    analysisReasoning := e.riskReasoning.getD ""
    overallRisk := e.riskLevel.getD "medium"
    summary := "第一阶段风险评分"
    analysisTime := 0 }

/-- Default result for a batch file absent from the response
(`analyzer.py` lines 1430–1446). -/
def missingScoreResult (fi : FileAnalysisInput) : AIAnalysisResult :=
  { filePath := fi.filePath
    aiRiskScore := 40
    vulnerabilities := []
    fixSuggestions := []
    confidence := 3/10
    analysisReasoning := "未在AI响应中找到评分"
    overallRisk := "medium"
    summary := "默认风险评分"
    analysisTime := 0 }

/-- Default result when decoding the batch response fails
(`analyzer.py` lines 1450–1467). -/
def parseDegradedResult (fi : FileAnalysisInput) : AIAnalysisResult :=
  { filePath := fi.filePath
    aiRiskScore := 45
    vulnerabilities := []
    fixSuggestions := []
    confidence := 1/5
    analysisReasoning := "第一阶段响应解析失败"
    overallRisk := "medium"
    summary := "解析失败的默认评分"
    analysisTime := 0 }

/-- Default result when the gateway call for a batch raises
(`analyzer.py` lines 1310–1326). -/
def batchDegradedResult (fi : FileAnalysisInput) : AIAnalysisResult :=
  { filePath := fi.filePath
    aiRiskScore := 50
    vulnerabilities := []
    fixSuggestions := []
    confidence := 3/10
    analysisReasoning := "第一阶段批量评分失败，使用默认分数"
    overallRisk := "medium"
    summary := "风险评分阶段异常"
    analysisTime := 0 }

/-- The first loop of `_parse_stage1_scoring_response` (`analyzer.py`
lines 1414–1428): one result per response entry whose `file_path` occurs
in the batch (`if file_path in file_path_map`). -/
def stage1MatchedResults (scores : List ScoreEntry)
    (batch : List FileAnalysisInput) : List AIAnalysisResult :=
  scores.filterMap fun e =>
    if batch.any (fun fi => fi.filePath == e.filePath) then
      some (parsedScoreResult e)
    else none

/-- `_parse_stage1_scoring_response`, success path (`analyzer.py` lines
1409–1448): one result per response entry whose `file_path` occurs in
the batch, then one `missingScoreResult` per batch file whose path is
not among the result paths. -/
def parseStage1ScoringResponse (scores : List ScoreEntry)
    (batch : List FileAnalysisInput) : List AIAnalysisResult :=
  let results := stage1MatchedResults scores batch
  let scoredPaths := results.map (·.filePath)
  results ++ batch.filterMap fun fi =>
    if scoredPaths.contains fi.filePath then none
    else some (missingScoreResult fi)

/-- One Stage 1 batch: dispatch on the gateway/parsing outcome. -/
def stage1ProcessBatch (resp : Stage1Response)
    (batch : List FileAnalysisInput) : List AIAnalysisResult :=
  match resp with
  | .gatewayError => batch.map batchDegradedResult
  | .parseFailure => batch.map parseDegradedResult
  | .parsed scores => parseStage1ScoringResponse scores batch

/-- The `for i in range(0, len(file_inputs), batch_size)` loop of
`_stage1_batch_risk_scoring`, written with explicit fuel so that it is
structurally recursive; `fuel = file_inputs.length` suffices because each
iteration consumes at least one file when `bs > 0`. -/
def stage1Fuel (gateway : ℕ → Stage1Response) (bs : ℕ) :
    ℕ → ℕ → List FileAnalysisInput → List AIAnalysisResult
  | 0, _, _ => []
  | _ + 1, _, [] => []
  | fuel + 1, i, x :: xs =>
    stage1ProcessBatch (gateway i) ((x :: xs).take bs) ++
      stage1Fuel gateway bs fuel (i + 1) ((x :: xs).drop bs)

/-- `AIAnalyzer._stage1_batch_risk_scoring`.  The gateway oracle maps the
batch number to that batch's outcome.  A `batch_size` of `0` makes the
source's `range(0, n, 0)` raise `ValueError`; the claims only concern
positive batch sizes, and this embedding returns `[]` in that case. -/
def stage1BatchRiskScoring (gateway : ℕ → Stage1Response)
    (fileInputs : List FileAnalysisInput) (bs : ℕ) : List AIAnalysisResult :=
  if bs = 0 then [] else stage1Fuel gateway bs fileInputs.length 0 fileInputs

/-! ### Stage 1 length accounting -/

theorem stage1MatchedResults_map_filePath (scores : List ScoreEntry)
    (batch : List FileAnalysisInput) :
    (stage1MatchedResults scores batch).map (·.filePath)
      = (scores.map (·.filePath)).filter
          (fun p => batch.any (fun fi => fi.filePath == p)) := by
  induction scores with
  | nil => rfl
  | cons e es ih =>
    unfold stage1MatchedResults at ih ⊢
    cases h : batch.any (fun fi => fi.filePath == e.filePath) with
    | true =>
      simp only [List.filterMap_cons, List.map_cons, List.filter_cons, h,
        if_true, ih]
      simp [parsedScoreResult]
    | false =>
      simp only [List.filterMap_cons, List.map_cons, List.filter_cons, h,
        Bool.false_eq_true, if_false, ih]

theorem filterMap_if_none_eq_map_filter {β γ : Type} (q : β → Bool) (g : β → γ)
    (l : List β) :
    (l.filterMap fun x => if q x then none else some (g x))
      = (l.filter (fun x => !q x)).map g := by
  induction l with
  | nil => rfl
  | cons x xs ih =>
    by_cases h : q x = true
    · simp [List.filterMap_cons, h, List.filter_cons, ih]
    · simp [List.filterMap_cons, h, List.filter_cons, ih]

theorem length_filter_add_length_filter_not {β : Type} (p : β → Bool)
    (l : List β) :
    (l.filter p).length + (l.filter (fun x => !p x)).length = l.length := by
  induction l with
  | nil => rfl
  | cons x xs ih =>
    by_cases h : p x = true <;> simp [List.filter_cons, h] <;> omega

/-- Counting a nodup key list inside a list with nodup keys: filtering by
membership of the keys in `m` yields exactly `m.length` elements. -/
theorem length_filter_contains_key {β : Type} (key : β → String) :
    ∀ (b : List β) (m : List String), (b.map key).Nodup → m.Nodup →
      (∀ p ∈ m, p ∈ b.map key) →
      (b.filter (fun x => m.contains (key x))).length = m.length := by
  intro b
  induction b with
  | nil =>
    intro m _ _ hsub
    cases m with
    | nil => rfl
    | cons p ps => exact absurd (hsub p (by simp)) (by simp)
  | cons x t ih =>
    intro m hb hm hsub
    rw [List.map_cons] at hb
    rcases List.nodup_cons.mp hb with ⟨hkx, ht⟩
    by_cases hmem : key x ∈ m
    · have hc : m.contains (key x) = true := List.elem_iff.mpr hmem
      simp only [List.filter_cons, hc, if_true]
      have hcong : t.filter (fun y => m.contains (key y))
          = t.filter (fun y => (m.erase (key x)).contains (key y)) := by
        refine List.filter_congr ?_
        intro y hy
        have hne : key y ≠ key x := by
          intro hcon
          exact hkx (hcon ▸ List.mem_map_of_mem key hy)
        have hiff : key y ∈ m.erase (key x) ↔ key y ∈ m := by
          rw [hm.mem_erase_iff]
          exact ⟨fun h => h.2, fun h => ⟨hne, h⟩⟩
        by_cases hym : key y ∈ m
        · have ha : m.contains (key y) = true := List.elem_iff.mpr hym
          have hb2 : (m.erase (key x)).contains (key y) = true :=
            List.elem_iff.mpr (hiff.mpr hym)
          rw [ha, hb2]
        · have h1 : m.contains (key y) = false := by
            rw [← Bool.not_eq_true]
            exact fun hcontra => hym (List.elem_iff.mp hcontra)
          have h2 : (m.erase (key x)).contains (key y) = false := by
            rw [← Bool.not_eq_true]
            exact fun hcontra => hym (hiff.mp (List.elem_iff.mp hcontra))
          rw [h1, h2]
      have hlen : (t.filter (fun y => (m.erase (key x)).contains (key y))).length
          = (m.erase (key x)).length := by
        refine ih (m.erase (key x)) ht (hm.erase _) ?_
        intro p hp
        have hpm : p ∈ m := List.mem_of_mem_erase hp
        have hpne : p ≠ key x := (hm.mem_erase_iff.mp hp).1
        have hmem2 := hsub p hpm
        rw [List.map_cons] at hmem2
        rcases List.mem_cons.mp hmem2 with h | h
        · exact absurd h hpne
        · exact h
      have herase := List.length_erase_of_mem hmem
      have hpos : 0 < m.length := List.length_pos.mpr (by rintro rfl; simp at hmem)
      rw [List.length_cons, hcong, hlen, herase]
      omega
    · have hc : m.contains (key x) = false := by
        rw [← Bool.not_eq_true]
        exact fun hcontra => hmem (List.elem_iff.mp hcontra)
      simp only [List.filter_cons, hc, Bool.false_eq_true, if_false]
      refine ih m ht hm ?_
      intro p hp
      have hmem2 := hsub p hp
      rw [List.map_cons] at hmem2
      rcases List.mem_cons.mp hmem2 with h | h
      · exact absurd (h ▸ hp) hmem
      · exact h

/-- Appending one default per uncovered batch path restores the batch
length, whenever the covered paths are distinct and drawn from a batch
with distinct paths. -/
theorem append_missing_defaults_length (results : List AIAnalysisResult)
    (batch : List FileAnalysisInput)
    (hres : (results.map (·.filePath)).Nodup)
    (hsub : ∀ p ∈ results.map (·.filePath), p ∈ batch.map (·.filePath))
    (hb : (batch.map (·.filePath)).Nodup) :
    (results ++ batch.filterMap (fun fi =>
      if (results.map (·.filePath)).contains fi.filePath then none
      else some (missingScoreResult fi))).length = batch.length := by
  rw [List.length_append]
  rw [filterMap_if_none_eq_map_filter
    (fun fi => (results.map (·.filePath)).contains fi.filePath)
    missingScoreResult batch]
  rw [List.length_map]
  have h1 : (batch.filter
      (fun x => (results.map (·.filePath)).contains x.filePath)).length
      = (results.map (·.filePath)).length :=
    length_filter_contains_key (fun x => x.filePath) batch _ hb hres hsub
  have h2 : (batch.filter
        (fun x => (results.map (·.filePath)).contains x.filePath)).length
      + (batch.filter
        (fun x => !(results.map (·.filePath)).contains x.filePath)).length
      = batch.length :=
    length_filter_add_length_filter_not _ batch
  have h3 : results.length = (results.map (·.filePath)).length :=
    (List.length_map _ _).symm
  omega

/-- The amended Stage 1 parse guarantee: when the batch's paths are
distinct and the response names no path twice, the parse returns exactly
one result per batch file. -/
theorem parseStage1ScoringResponse_length (scores : List ScoreEntry)
    (batch : List FileAnalysisInput)
    (hb : (batch.map (·.filePath)).Nodup)
    (hs : (scores.map (·.filePath)).Nodup) :
    (parseStage1ScoringResponse scores batch).length = batch.length := by
  show (stage1MatchedResults scores batch ++ batch.filterMap (fun fi =>
      if ((stage1MatchedResults scores batch).map (·.filePath)).contains
          fi.filePath then none
      else some (missingScoreResult fi))).length = batch.length
  refine append_missing_defaults_length _ batch ?_ ?_ hb
  · rw [stage1MatchedResults_map_filePath]
    exact hs.filter _
  · rw [stage1MatchedResults_map_filePath]
    intro p hp
    have hany := (List.mem_filter.mp hp).2
    rcases List.any_eq_true.mp hany with ⟨fi, hfi, heq⟩
    exact (eq_of_beq heq) ▸ List.mem_map_of_mem _ hfi

/-- A parsed reasoning response that lists no `file_path` twice; gateway
failures and undecodable responses satisfy this vacuously. -/
def responseNoDuplicatePaths : Stage1Response → Prop
  | .parsed scores => (scores.map (·.filePath)).Nodup
  | _ => True

theorem stage1ProcessBatch_length (resp : Stage1Response)
    (batch : List FileAnalysisInput)
    (hb : (batch.map (·.filePath)).Nodup)
    (hr : responseNoDuplicatePaths resp) :
    (stage1ProcessBatch resp batch).length = batch.length := by
  cases resp with
  | gatewayError => simp [stage1ProcessBatch]
  | parseFailure => simp [stage1ProcessBatch]
  | parsed scores =>
    exact parseStage1ScoringResponse_length scores batch hb hr

theorem stage1Fuel_length (gateway : ℕ → Stage1Response) (bs : ℕ)
    (hbs : 0 < bs)
    (hresp : ∀ i, responseNoDuplicatePaths (gateway i)) :
    ∀ (fuel i : ℕ) (l : List FileAnalysisInput), l.length ≤ fuel →
      (l.map (·.filePath)).Nodup →
      (stage1Fuel gateway bs fuel i l).length = l.length := by
  intro fuel
  induction fuel with
  | zero =>
    intro i l hlen _
    rw [List.eq_nil_of_length_eq_zero (Nat.le_zero.mp hlen)]
    rfl
  | succ fuel ih =>
    intro i l hlen hnodup
    cases l with
    | nil => rfl
    | cons x xs =>
      rw [stage1Fuel, List.length_append]
      have htake : (((x :: xs).take bs).map (·.filePath)).Nodup :=
        ((List.take_sublist bs _).map _).nodup hnodup
      have hdrop : (((x :: xs).drop bs).map (·.filePath)).Nodup :=
        ((List.drop_sublist bs _).map _).nodup hnodup
      have hdlen : ((x :: xs).drop bs).length ≤ fuel := by
        rw [List.length_drop]
        simp only [List.length_cons] at hlen ⊢
        omega
      rw [stage1ProcessBatch_length _ _ htake (hresp i), ih (i + 1) _ hdlen hdrop]
      rw [List.length_take, List.length_drop]
      simp only [List.length_cons]
      omega

/-! ### Concrete instances used by witnesses and counterexamples -/

/-- A concrete candidate file. -/
def sampleFile : FileAnalysisInput :=
  { filePath := "app.py", content := "print(1)", language := "python" }

/-- A concrete score entry for `sampleFile` with the given score. -/
def sampleEntry (q : ℚ) : ScoreEntry :=
  { filePath := "app.py", riskScore := some q, confidence := some (9/10)
    riskReasoning := some "pattern", riskLevel := some "high" }

/-- A gateway whose single response scores `app.py` twice. -/
def dupGateway : ℕ → Stage1Response :=
  fun _ => .parsed [sampleEntry 60, sampleEntry 70]

/-- A gateway whose single response scores `app.py` once. -/
def okGateway : ℕ → Stage1Response :=
  fun _ => .parsed [sampleEntry 60]

/-- A gateway whose single response carries an out-of-range score. -/
def bigScoreGateway : ℕ → Stage1Response :=
  fun _ => .parsed [{ filePath := "app.py", riskScore := some 150
                      confidence := none, riskReasoning := none
                      riskLevel := none }]

/-! ### C1 — Stage 1 output size -/

/-- C1, counterexample: when the reasoning response lists the same
`file_path` twice, `_parse_stage1_scoring_response` appends one result
per matching entry, so Stage 1 returns two results for a single input
file and the output length exceeds the input length. -/
theorem stage1_duplicate_entry_inflates_output :
    (stage1BatchRiskScoring dupGateway [sampleFile] 1).length ≠
      ([sampleFile] : List FileAnalysisInput).length := by decide

/-- C1 (amended): for every positive batch size, input list with
distinct file paths, and gateway whose parsed responses never list the
same file path twice, Stage 1 returns exactly one risk-score result per
input file — missing files receive defaults and failed batches degrade
to one default per file — so the output length equals the input
length. -/
theorem stage1_output_length_eq_input_length
    (gateway : ℕ → Stage1Response) (fileInputs : List FileAnalysisInput)
    (bs : ℕ) (hbs : 0 < bs)
    (hpaths : (fileInputs.map (·.filePath)).Nodup)
    (hresp : ∀ i, responseNoDuplicatePaths (gateway i)) :
    (stage1BatchRiskScoring gateway fileInputs bs).length
      = fileInputs.length := by
  unfold stage1BatchRiskScoring
  rw [if_neg (Nat.pos_iff_ne_zero.mp hbs)]
  exact stage1Fuel_length gateway bs hbs hresp fileInputs.length 0 fileInputs
    le_rfl hpaths

/-- Witness for C1's amended theorem at a concrete input. -/
theorem stage1_output_length_eq_input_length_witness :
    (stage1BatchRiskScoring okGateway [sampleFile] 1).length = 1 :=
  stage1_output_length_eq_input_length okGateway [sampleFile] 1
    (by decide) (by decide)
    (fun _ => (by decide : (([sampleEntry 60].map (·.filePath))).Nodup))

/-! ### C3 — Stage 1 scores in [0,100] -/

/-- A reasoning response whose parsed `risk_score` values all lie in
`[0,100]`; gateway failures and undecodable responses satisfy this
vacuously. -/
def responseScoresInRange : Stage1Response → Prop
  | .parsed scores => ∀ e ∈ scores, ∀ q : ℚ, e.riskScore = some q →
      0 ≤ q ∧ q ≤ 100
  | _ => True

theorem stage1ProcessBatch_score_in_range (resp : Stage1Response)
    (batch : List FileAnalysisInput) (hr : responseScoresInRange resp) :
    ∀ r ∈ stage1ProcessBatch resp batch,
      0 ≤ r.aiRiskScore ∧ r.aiRiskScore ≤ 100 := by
  intro r hrmem
  cases resp with
  | gatewayError =>
    simp only [stage1ProcessBatch] at hrmem
    rcases List.mem_map.mp hrmem with ⟨fi, _, rfl⟩
    constructor <;> norm_num [batchDegradedResult]
  | parseFailure =>
    simp only [stage1ProcessBatch] at hrmem
    rcases List.mem_map.mp hrmem with ⟨fi, _, rfl⟩
    constructor <;> norm_num [parseDegradedResult]
  | parsed scores =>
    simp only [stage1ProcessBatch, parseStage1ScoringResponse] at hrmem
    rcases List.mem_append.mp hrmem with hm | hm
    · unfold stage1MatchedResults at hm
      rcases List.mem_filterMap.mp hm with ⟨e, hemem, he⟩
      by_cases hcond : (batch.any fun fi => fi.filePath == e.filePath) = true
      · rw [if_pos hcond, Option.some.injEq] at he
        subst he
        cases hqs : e.riskScore with
        | none => constructor <;> norm_num [parsedScoreResult, hqs]
        | some q =>
          have hq := hr e hemem q hqs
          simpa [parsedScoreResult, hqs] using hq
      · rw [if_neg hcond] at he
        exact absurd he (Option.noConfusion)
    · rcases List.mem_filterMap.mp hm with ⟨fi, _, hfi⟩
      by_cases hcond : (((stage1MatchedResults scores batch).map
          (·.filePath)).contains fi.filePath) = true
      · rw [if_pos hcond] at hfi
        exact absurd hfi (Option.noConfusion)
      · rw [if_neg hcond, Option.some.injEq] at hfi
        subst hfi
        constructor <;> norm_num [missingScoreResult]

theorem stage1Fuel_score_in_range (gateway : ℕ → Stage1Response) (bs : ℕ)
    (hresp : ∀ i, responseScoresInRange (gateway i)) :
    ∀ (fuel i : ℕ) (l : List FileAnalysisInput),
      ∀ r ∈ stage1Fuel gateway bs fuel i l,
        0 ≤ r.aiRiskScore ∧ r.aiRiskScore ≤ 100 := by
  intro fuel
  induction fuel with
  | zero => intro i l r hr; simp [stage1Fuel] at hr
  | succ fuel ih =>
    intro i l r hr
    cases l with
    | nil => simp [stage1Fuel] at hr
    | cons x xs =>
      rw [stage1Fuel] at hr
      rcases List.mem_append.mp hr with h | h
      · exact stage1ProcessBatch_score_in_range _ _ (hresp i) r h
      · exact ih (i + 1) _ r h

/-- C3, counterexample: `_parse_stage1_scoring_response` converts the
response's `risk_score` with `float(...)` and no clamping, so a response
scoring `app.py` at `150` produces a Stage 1 `RiskScore` outside
`[0,100]`. -/
theorem stage1_parsed_score_can_exceed_100 :
    ¬ (∀ r ∈ stage1BatchRiskScoring bigScoreGateway [sampleFile] 1,
        0 ≤ r.aiRiskScore ∧ r.aiRiskScore ≤ 100) := by decide

/-- C3 (amended): every default score assigned by Stage 1 (gateway
failure 50, parse failure 45, missing file 40, absent `risk_score` field
50) lies in `[0,100]`, and a parsed score equals the response's value
unchanged; hence whenever every score named in a parsed response lies in
`[0,100]`, every Stage 1 result score lies in `[0,100]`. -/
theorem stage1_scores_in_range_of_response_in_range
    (gateway : ℕ → Stage1Response) (fileInputs : List FileAnalysisInput)
    (bs : ℕ) (hresp : ∀ i, responseScoresInRange (gateway i)) :
    ∀ r ∈ stage1BatchRiskScoring gateway fileInputs bs,
      0 ≤ r.aiRiskScore ∧ r.aiRiskScore ≤ 100 := by
  intro r hr
  unfold stage1BatchRiskScoring at hr
  by_cases hbs : bs = 0
  · rw [if_pos hbs] at hr
    simp at hr
  · rw [if_neg hbs] at hr
    exact stage1Fuel_score_in_range gateway bs hresp _ 0 fileInputs r hr

/-- Witness for C3's amended theorem at a concrete input. -/
theorem stage1_scores_in_range_witness :
    0 ≤ (parsedScoreResult (sampleEntry 60)).aiRiskScore ∧
      (parsedScoreResult (sampleEntry 60)).aiRiskScore ≤ 100 :=
  stage1_scores_in_range_of_response_in_range okGateway [sampleFile] 1
    (fun _ => (fun e he q hq => by
      simp only [List.mem_singleton] at he
      subst he
      simp only [sampleEntry, Option.some.injEq] at hq
      subst hq
      norm_num))
    (parsedScoreResult (sampleEntry 60))
    (show parsedScoreResult (sampleEntry 60) ∈
        [parsedScoreResult (sampleEntry 60)] from List.mem_singleton.mpr rfl)

/-! ### C4 — total gateway failure degrades every file -/

theorem stage1Fuel_const_gateway_failure (gateway : ℕ → Stage1Response)
    (bs : ℕ) (hbs : 0 < bs) (hfail : ∀ i, gateway i = .gatewayError) :
    ∀ (fuel i : ℕ) (l : List FileAnalysisInput), l.length ≤ fuel →
      stage1Fuel gateway bs fuel i l = l.map batchDegradedResult := by
  intro fuel
  induction fuel with
  | zero =>
    intro i l hl
    rw [List.eq_nil_of_length_eq_zero (Nat.le_zero.mp hl)]
    rfl
  | succ fuel ih =>
    intro i l hl
    cases l with
    | nil => rfl
    | cons x xs =>
      rw [stage1Fuel, hfail i]
      show ((x :: xs).take bs).map batchDegradedResult ++
        stage1Fuel gateway bs fuel (i + 1) ((x :: xs).drop bs) = _
      rw [ih (i + 1) _ (by
        rw [List.length_drop]
        simp only [List.length_cons] at hl ⊢
        omega)]
      rw [← List.map_append, List.take_append_drop]

/-- C4: if the gateway raises on every Stage 1 batch call, Stage 1 still
returns exactly one result per input file, every result's score equals
the default degraded value 50, every confidence is the low 0.3, and
every rationale states the degradation; no exception escapes (the
embedding is a total function returning the degraded list). -/
theorem stage1_total_gateway_failure_degrades
    (gateway : ℕ → Stage1Response) (fileInputs : List FileAnalysisInput)
    (bs : ℕ) (hbs : 0 < bs)
    (hfail : ∀ i, gateway i = .gatewayError) :
    stage1BatchRiskScoring gateway fileInputs bs
        = fileInputs.map batchDegradedResult
    ∧ (stage1BatchRiskScoring gateway fileInputs bs).length
        = fileInputs.length
    ∧ ∀ r ∈ stage1BatchRiskScoring gateway fileInputs bs,
        r.aiRiskScore = 50 ∧ r.confidence = 3/10 ∧
        r.analysisReasoning = "第一阶段批量评分失败，使用默认分数" := by
  have hmain : stage1BatchRiskScoring gateway fileInputs bs
      = fileInputs.map batchDegradedResult := by
    unfold stage1BatchRiskScoring
    rw [if_neg (Nat.pos_iff_ne_zero.mp hbs)]
    exact stage1Fuel_const_gateway_failure gateway bs hbs hfail _ 0
      fileInputs le_rfl
  refine ⟨hmain, by rw [hmain, List.length_map], ?_⟩
  intro r hr
  rw [hmain] at hr
  rcases List.mem_map.mp hr with ⟨fi, _, rfl⟩
  exact ⟨rfl, rfl, rfl⟩

/-- Witness for C4's theorem at a concrete input. -/
theorem stage1_total_gateway_failure_degrades_witness :
    stage1BatchRiskScoring (fun _ => .gatewayError) [sampleFile] 1
        = [sampleFile].map batchDegradedResult
    ∧ (stage1BatchRiskScoring (fun _ => .gatewayError) [sampleFile] 1).length
        = ([sampleFile] : List FileAnalysisInput).length
    ∧ ∀ r ∈ stage1BatchRiskScoring (fun _ => .gatewayError) [sampleFile] 1,
        r.aiRiskScore = 50 ∧ r.confidence = 3/10 ∧
        r.analysisReasoning = "第一阶段批量评分失败，使用默认分数" :=
  stage1_total_gateway_failure_degrades (fun _ => .gatewayError)
    [sampleFile] 1 (by decide) (fun _ => rfl)

/-! ## High-risk selection between Stage 1 and Stage 2

Embedding of `analyzer.py` lines 1193–1221: the orchestrator filters the
Stage 1 results by `ai_risk_score >= risk_threshold`, sorts that list by
score descending, and then rebuilds the Stage 2 input list by filtering
the original `file_inputs` (in their original order) for paths that
occur among the high-risk results. -/

/-- `high_risk_files.sort(key=lambda x: x.ai_risk_score, reverse=True)`:
the stable descending preorder on results by score. -/
def byScoreDesc (a b : AIAnalysisResult) : Bool :=
  decide (b.aiRiskScore ≤ a.aiRiskScore)

/-- `analyzer.py` lines 1194–1199: threshold filter plus descending
sort of the Stage 1 results. -/
def highRiskFiles (results : List AIAnalysisResult) (threshold : ℚ) :
    List AIAnalysisResult :=
  sortBy byScoreDesc
    (results.filter (fun r => decide (threshold ≤ r.aiRiskScore)))

/-- `analyzer.py` lines 1211–1215: the `high_risk_inputs` list handed to
Stage 2 — `file_inputs` filtered by path membership among the high-risk
results, keeping the original input order. -/
def selectHighRiskInputs (results : List AIAnalysisResult)
    (fileInputs : List FileAnalysisInput) (threshold : ℚ) :
    List FileAnalysisInput :=
  fileInputs.filter (fun fi =>
    (highRiskFiles results threshold).any (fun hr => hr.filePath == fi.filePath))

theorem any_filter_eq {β : Type} (p f : β → Bool) (l : List β) :
    (l.filter p).any f = l.any (fun x => p x && f x) := by
  induction l with
  | nil => rfl
  | cons x xs ih =>
    cases h : p x with
    | true => simp [List.filter_cons, h, List.any_cons, ih]
    | false => simp [List.filter_cons, h, List.any_cons, ih]

/-- The Stage 1 score associated to each Stage 2 input file, in the
order Stage 2 receives the files. -/
def stage2PresentedScores (results : List AIAnalysisResult)
    (fileInputs : List FileAnalysisInput) (threshold : ℚ) : List ℚ :=
  (selectHighRiskInputs results fileInputs threshold).map (fun fi =>
    ((results.find? (fun r => r.filePath == fi.filePath)).map
      (·.aiRiskScore)).getD 0)

/-- Concrete Stage 1 result: `a.py` scored 80. -/
def lowScoreResult : AIAnalysisResult :=
  { filePath := "a.py", aiRiskScore := 80, vulnerabilities := []
    fixSuggestions := [], confidence := 1/2, analysisReasoning := ""
    overallRisk := "high", summary := "", analysisTime := 0 }

/-- Concrete Stage 1 result: `b.py` scored 90. -/
def highScoreResult : AIAnalysisResult :=
  { filePath := "b.py", aiRiskScore := 90, vulnerabilities := []
    fixSuggestions := [], confidence := 1/2, analysisReasoning := ""
    overallRisk := "high", summary := "", analysisTime := 0 }

/-- Concrete input file `a.py`. -/
def fileA : FileAnalysisInput :=
  { filePath := "a.py", content := "", language := "python" }

/-- Concrete input file `b.py`. -/
def fileB : FileAnalysisInput :=
  { filePath := "b.py", content := "", language := "python" }

/-- C2, counterexample: with Stage 1 scores `a.py ↦ 80`, `b.py ↦ 90`
and threshold 70, the files handed to Stage 2 are `[a.py, b.py]` — the
original candidate order, scores `[80, 90]` — not sorted by risk score
descending.  The descending sort in the source is applied to the score
list only; `high_risk_inputs` is rebuilt by filtering `file_inputs`. -/
theorem stage2_inputs_not_sorted_by_score :
    stage2PresentedScores [lowScoreResult, highScoreResult] [fileA, fileB] 70
        = [80, 90]
    ∧ ¬ (([(80 : ℚ), 90]).Pairwise (fun a b => b ≤ a)) := by
  constructor
  · decide
  · intro h
    rcases List.pairwise_cons.mp h with ⟨h1, _⟩
    have := h1 90 (by simp)
    norm_num at this

/-- C2 (amended): the Stage 2 input list equals `file_inputs` filtered
(in original input order) to the files for which some Stage 1 result
with the same path clears the threshold; membership in the Stage 2 input
set is exactly `{f : ∃ RiskScore for f with score ≥ threshold}`; the
descending-by-score order holds for the internal high-risk result list,
not for the file list handed to Stage 2. -/
theorem stage2_selection_set_and_order (results : List AIAnalysisResult)
    (fileInputs : List FileAnalysisInput) (threshold : ℚ) :
    selectHighRiskInputs results fileInputs threshold
      = fileInputs.filter (fun fi => results.any (fun r =>
          decide (threshold ≤ r.aiRiskScore) && (r.filePath == fi.filePath)))
    ∧ (∀ fi, fi ∈ selectHighRiskInputs results fileInputs threshold ↔
        fi ∈ fileInputs ∧ ∃ r ∈ results,
          r.filePath = fi.filePath ∧ threshold ≤ r.aiRiskScore)
    ∧ ((highRiskFiles results threshold).map (·.aiRiskScore)).Pairwise
        (fun a b => b ≤ a) := by
  refine ⟨?_, ?_, ?_⟩
  · unfold selectHighRiskInputs
    refine List.filter_congr ?_
    intro fi _
    rw [highRiskFiles, any_sortBy, any_filter_eq]
  · intro fi
    unfold selectHighRiskInputs highRiskFiles
    rw [List.mem_filter]
    constructor
    · rintro ⟨hin, hany⟩
      refine ⟨hin, ?_⟩
      rcases List.any_eq_true.mp hany with ⟨hr, hhr, hbeq⟩
      rcases List.mem_filter.mp ((mem_sortBy byScoreDesc hr _).mp hhr) with
        ⟨hrres, hp⟩
      exact ⟨hr, hrres, eq_of_beq hbeq, of_decide_eq_true hp⟩
    · rintro ⟨hin, r, hrres, hpath, hge⟩
      refine ⟨hin, List.any_eq_true.mpr ⟨r, ?_, beq_iff_eq.mpr hpath⟩⟩
      exact (mem_sortBy byScoreDesc r _).mpr
        (List.mem_filter.mpr ⟨hrres, decide_eq_true hge⟩)
  · have htot : ∀ a b, byScoreDesc a b = true ∨ byScoreDesc b a = true := by
      intro a b
      rcases le_total b.aiRiskScore a.aiRiskScore with h | h
      · exact Or.inl (decide_eq_true h)
      · exact Or.inr (decide_eq_true h)
    have htrans : ∀ a b c, byScoreDesc a b = true → byScoreDesc b c = true →
        byScoreDesc a c = true := by
      intro a b c hab hbc
      exact decide_eq_true
        (le_trans (of_decide_eq_true hbc) (of_decide_eq_true hab))
    have hsorted := pairwise_sortBy byScoreDesc htot htrans
      (results.filter (fun r => decide (threshold ≤ r.aiRiskScore)))
    exact List.Pairwise.map _ (fun a b h => of_decide_eq_true h) hsorted

/-! ## Knowledge base and hybrid retrieval

Embedding of `CVEfixesKnowledgeBase` (`cve_knowledge_base.py`): the
SQLite corpus is `store`, the FAISS index is abstracted by `ntotal`
(`index.ntotal`) and `nnSearch` (`index.search`, returning index and L2
distance per neighbor), the sentence-transformer by `encode`.  `encode`
and `nnSearch` return `Except` because any exception inside
`_vector_search` makes `search_similar_vulnerabilities` fall back to
`_text_search`.  FTS5 `MATCH` is the abstract `ftsMatch`; `dbOk = false`
models a raising SQLite connection. -/

/-- A row of the `cve_fixes` table (the columns used by retrieval). -/
structure CVERecord where
  cveId : String
  severity : String
  description : String
  cweId : Option String
  cvssScore : ℚ
  programmingLanguage : String
  vulnerabilityPattern : String
  fixPattern : String
  deriving DecidableEq

/-- An item of `metadata["vectors"]`: record id plus the denormalized
filter metadata used by `_vector_search`. -/
structure MetaItem where
  id : String
  programmingLanguage : String
  severity : String
  deriving DecidableEq

/-- State of a `CVEfixesKnowledgeBase` instance. -/
structure KnowledgeBase where
  vectorSearchAvailable : Bool
  hasIndex : Bool
  hasEmbeddingModel : Bool
  ntotal : ℕ
  encode : String → Except Unit (List ℚ)
  nnSearch : List ℚ → ℕ → Except Unit (List (ℤ × ℚ))
  cveIds : List String
  metaVectors : List MetaItem
  store : List CVERecord
  dbOk : Bool
  ftsMatch : String → CVERecord → Bool

/-- One element of a search result list, with the optional
`similarity_score` attached by the vector path. -/
structure SearchResult where
  record : CVERecord
  similarityScore : Option ℚ
  deriving DecidableEq

/-- `get_fix_details`: corpus lookup by id; db errors and missing rows
give `none`. -/
def getFixDetails (kb : KnowledgeBase) (cveId : String) : Option CVERecord :=
  if kb.dbOk then kb.store.find? (fun r => r.cveId == cveId) else none

/-- A surviving neighbor inside `_vector_search`'s loop. -/
structure VHit where
  cveId : String
  item : MetaItem
  similarityScore : ℚ
  deriving DecidableEq

/-- The post-hoc language/severity filter of `_vector_search`. -/
def passesHitFilters (language severity : String) (item : MetaItem) : Bool :=
  (language == "" || item.programmingLanguage == language) &&
    (severity == "" || item.severity == severity)

/-- One iteration of `_vector_search`'s loop body: bounds-check the
neighbor index, look up its id, find its metadata item, apply the
filters, and attach `similarity = 1/(1 + distance)`. -/
def hitOfNeighbor (kb : KnowledgeBase) (language severity : String)
    (p : ℤ × ℚ) : Option VHit :=
  if h : 0 ≤ p.1 ∧ p.1.toNat < kb.cveIds.length then
    let cveId := kb.cveIds.get ⟨p.1.toNat, h.2⟩
    match kb.metaVectors.find? (fun item => item.id == cveId) with
    | some item =>
        if passesHitFilters language severity item then
          some { cveId := cveId, item := item
                 similarityScore := 1 / (1 + p.2) }
        else none
    | none => none
  else none

/-- The accumulation loop over `indices[0]` in `_vector_search`. -/
def collectVectorHits (kb : KnowledgeBase) (language severity : String) :
    List (ℤ × ℚ) → List VHit
  | [] => []
  | p :: rest =>
    match hitOfNeighbor kb language severity p with
    | some h => h :: collectVectorHits kb language severity rest
    | none => collectVectorHits kb language severity rest

/-- `sorted(results, key=lambda x: x.get("similarity_score", 0),
reverse=True)`: the descending preorder by similarity. -/
def bySimilarityDesc (a b : VHit) : Bool :=
  decide (b.similarityScore ≤ a.similarityScore)

/-- The hydration loop of `_vector_search`: fetch each surviving hit's
full record via `get_fix_details`, dropping hits with no record. -/
def enrichHits (kb : KnowledgeBase) : List VHit → List SearchResult
  | [] => []
  | h :: rest =>
    match getFixDetails kb h.cveId with
    | some details =>
        { record := details, similarityScore := some h.similarityScore } ::
          enrichHits kb rest
    | none => enrichHits kb rest

/-- `CVEfixesKnowledgeBase._vector_search`. -/
def vectorSearch (kb : KnowledgeBase) (searchQuery language severity : String)
    (limit : ℕ) : Except Unit (List SearchResult) :=
  match kb.encode searchQuery with
  | .error e => .error e
  | .ok v =>
    match kb.nnSearch v (limit * 3) with
    | .error e => .error e
    | .ok pairs =>
      .ok (enrichHits kb
        ((sortBy bySimilarityDesc
          (collectVectorHits kb language severity pairs)).take limit))

/-- The `CASE cf.severity WHEN 'critical' THEN 1 ... END` rank. -/
def severityCaseRank (s : String) : ℕ :=
  if s == "critical" then 1
  else if s == "high" then 2
  else if s == "medium" then 3
  else 4

/-- `ORDER BY severity-case, cvss_score DESC` of `_text_search`'s
no-query branch. -/
def bySeverityThenScore (a b : CVERecord) : Bool :=
  decide (severityCaseRank a.severity < severityCaseRank b.severity) ||
    (severityCaseRank a.severity == severityCaseRank b.severity &&
      decide (b.cvssScore ≤ a.cvssScore))

/-- `_text_search`'s SQL `WHERE` filters on language and severity. -/
def textSearchFilters (language severity : String) (r : CVERecord) : Bool :=
  (language == "" || r.programmingLanguage == language) &&
    (severity == "" || r.severity == severity)

/-- `CVEfixesKnowledgeBase._text_search`: any database exception yields
`[]`; with a search query, FTS matching filters the corpus (the FTS5
`rank` order is opaque and modelled as store order); without one, the
corpus is ordered by severity rank then cvss descending; both branches
`LIMIT` to `limit` rows. -/
def textSearch (kb : KnowledgeBase) (searchQuery language severity : String)
    (limit : ℕ) : List SearchResult :=
  if !kb.dbOk then []
  else if searchQuery == "" then
    ((sortBy bySeverityThenScore
        (kb.store.filter (textSearchFilters language severity))).take
      limit).map (fun r => { record := r, similarityScore := none })
  else
    ((kb.store.filter (fun r =>
        textSearchFilters language severity r &&
          kb.ftsMatch searchQuery r)).take limit).map
      (fun r => { record := r, similarityScore := none })

/-- `f"{vulnerability_description} {code_snippet}".strip()`. -/
def queryText (vulnerabilityDescription codeSnippet : String) : String :=
  (vulnerabilityDescription ++ " " ++ codeSnippet).trim

/-- `CVEfixesKnowledgeBase.search_similar_vulnerabilities`: prefer the
vector path when available, the index and model exist and the index is
non-empty; fall back to `_text_search` otherwise or when the vector path
raises. -/
def searchSimilarVulnerabilities (kb : KnowledgeBase)
    (vulnerabilityDescription codeSnippet language severity : String)
    (limit : ℕ) : List SearchResult :=
  let q := queryText vulnerabilityDescription codeSnippet
  if kb.vectorSearchAvailable && kb.hasIndex && kb.hasEmbeddingModel &&
      decide (0 < kb.ntotal) then
    match vectorSearch kb q language severity limit with
    | .ok results => results
    | .error _ => textSearch kb q language severity limit
  else
    textSearch kb q language severity limit

theorem length_enrichHits_le (kb : KnowledgeBase) :
    ∀ l : List VHit, (enrichHits kb l).length ≤ l.length := by
  intro l
  induction l with
  | nil => exact Nat.le_refl 0
  | cons h rest ih =>
    rw [enrichHits]
    cases getFixDetails kb h.cveId with
    | none =>
      simp only [List.length_cons]
      omega
    | some details =>
      simp only [List.length_cons]
      omega

theorem vectorSearch_ok_length (kb : KnowledgeBase)
    (searchQuery language severity : String) (limit : ℕ)
    (results : List SearchResult)
    (h : vectorSearch kb searchQuery language severity limit = .ok results) :
    results.length ≤ limit := by
  unfold vectorSearch at h
  split at h
  · exact absurd h (by simp)
  · split at h
    · exact absurd h (by simp)
    · simp only [Except.ok.injEq] at h
      rw [← h]
      exact le_trans (length_enrichHits_le kb _) (List.length_take_le _ _)

theorem length_textSearch_le (kb : KnowledgeBase)
    (searchQuery language severity : String) (limit : ℕ) :
    (textSearch kb searchQuery language severity limit).length ≤ limit := by
  unfold textSearch
  by_cases hdb : kb.dbOk = true
  · by_cases hq : (searchQuery == "") = true
    · simp [hdb, hq, List.length_take]
    · simp [hdb, hq, List.length_take]
  · rw [Bool.not_eq_true] at hdb
    simp [hdb]

/-! ### C5 — retrieval never raises and is bounded by the limit -/

/-- C5: for every knowledge-base state, query, filters and limit, the
hybrid `search` returns at most `limit` results and is total (the
embedding encodes every exception path as a returned value): a database
error or an empty corpus makes the lexical fallback return `[]` rather
than raise, and when the vector index is absent the search is exactly
the lexical fallback. -/
theorem search_never_raises_and_bounded (kb : KnowledgeBase)
    (vd cs language severity : String) (limit : ℕ) :
    (searchSimilarVulnerabilities kb vd cs language severity limit).length
        ≤ limit
    ∧ (kb.dbOk = false →
        textSearch kb (queryText vd cs) language severity limit = [])
    ∧ (kb.store = [] →
        textSearch kb (queryText vd cs) language severity limit = [])
    ∧ (kb.hasIndex = false →
        searchSimilarVulnerabilities kb vd cs language severity limit
          = textSearch kb (queryText vd cs) language severity limit) := by
  refine ⟨?_, ?_, ?_, ?_⟩
  · unfold searchSimilarVulnerabilities
    by_cases hcond : (kb.vectorSearchAvailable && kb.hasIndex &&
        kb.hasEmbeddingModel && decide (0 < kb.ntotal)) = true
    · rw [if_pos hcond]
      cases hvs : vectorSearch kb (queryText vd cs) language severity limit
        with
      | ok results => exact vectorSearch_ok_length kb _ _ _ _ _ hvs
      | error e => exact length_textSearch_le kb _ _ _ _
    · rw [if_neg hcond]
      exact length_textSearch_le kb _ _ _ _
  · intro hdb
    unfold textSearch
    simp [hdb]
  · intro hstore
    unfold textSearch
    by_cases hdb : kb.dbOk = true
    · simp [hdb, hstore, sortBy]
    · rw [Bool.not_eq_true] at hdb
      simp [hdb]
  · intro hidx
    unfold searchSimilarVulnerabilities
    rw [if_neg (by simp [hidx])]

/-- A degraded knowledge base: no vector index, broken database
connection, empty corpus. -/
def degradedKB : KnowledgeBase :=
  { vectorSearchAvailable := false, hasIndex := false
    hasEmbeddingModel := false, ntotal := 0
    encode := fun _ => .error (), nnSearch := fun _ _ => .error ()
    cveIds := [], metaVectors := [], store := []
    dbOk := false, ftsMatch := fun _ _ => false }

/-- Witness for C5 at a concrete degraded knowledge base. -/
theorem search_never_raises_and_bounded_witness :
    (searchSimilarVulnerabilities degradedKB
        "sql injection" "" "python" "" 5).length ≤ 5
    ∧ textSearch degradedKB (queryText "sql injection" "") "python" "" 5 = []
    ∧ searchSimilarVulnerabilities degradedKB "sql injection" "" "python" "" 5
        = textSearch degradedKB (queryText "sql injection" "") "python" "" 5 :=
  ⟨(search_never_raises_and_bounded degradedKB "sql injection" "" "python" ""
      5).1,
   (search_never_raises_and_bounded degradedKB "sql injection" "" "python" ""
      5).2.1 rfl,
   (search_never_raises_and_bounded degradedKB "sql injection" "" "python" ""
      5).2.2.2 rfl⟩

/-! ### C6 — shape of the vector search pipeline -/

theorem collectVectorHits_eq_filterMap (kb : KnowledgeBase)
    (language severity : String) :
    ∀ pairs : List (ℤ × ℚ),
      collectVectorHits kb language severity pairs
        = pairs.filterMap (hitOfNeighbor kb language severity) := by
  intro pairs
  induction pairs with
  | nil => rfl
  | cons p rest ih =>
    rw [collectVectorHits, List.filterMap_cons]
    cases hitOfNeighbor kb language severity p with
    | none => simp [ih]
    | some h => simp [ih]

/-- C6: when vector search is available, the index and model are
present, the index is non-empty and encoding and neighbor search
succeed, `search` equals the composition: encode the query, fetch
`3*k` nearest neighbors, apply the language/severity filters post-hoc
(`hitOfNeighbor` per neighbor), re-rank the surviving hits by similarity
descending, truncate to `k`, and hydrate each remaining hit with its
full record via the knowledge store. -/
theorem vector_search_pipeline_shape (kb : KnowledgeBase)
    (vd cs language severity : String) (k : ℕ)
    (v : List ℚ) (pairs : List (ℤ × ℚ))
    (hav : kb.vectorSearchAvailable = true) (hidx : kb.hasIndex = true)
    (hmod : kb.hasEmbeddingModel = true) (hn : 0 < kb.ntotal)
    (henc : kb.encode (queryText vd cs) = .ok v)
    (hnn : kb.nnSearch v (3 * k) = .ok pairs) :
    searchSimilarVulnerabilities kb vd cs language severity k
      = enrichHits kb ((sortBy bySimilarityDesc
          (pairs.filterMap (hitOfNeighbor kb language severity))).take k) := by
  unfold searchSimilarVulnerabilities
  rw [if_pos (by simp [hav, hidx, hmod, hn])]
  unfold vectorSearch
  simp only [henc]
  rw [Nat.mul_comm k 3]
  simp only [hnn]
  rw [collectVectorHits_eq_filterMap]

/-- A concrete corpus record. -/
def sampleRecord : CVERecord :=
  { cveId := "CVE-2021-1234", severity := "high"
    description := "SQL injection via string concatenation"
    cweId := some "CWE-89", cvssScore := 8
    programmingLanguage := "python"
    vulnerabilityPattern := "string concat"
    fixPattern := "parameterized query" }

/-- A concrete knowledge base with one indexed record. -/
def sampleKB : KnowledgeBase :=
  { vectorSearchAvailable := true, hasIndex := true
    hasEmbeddingModel := true, ntotal := 1
    encode := fun _ => .ok [1]
    nnSearch := fun _ _ => .ok [((0 : ℤ), 0)]
    cveIds := ["CVE-2021-1234"]
    metaVectors := [{ id := "CVE-2021-1234", programmingLanguage := "python"
                      severity := "high" }]
    store := [sampleRecord]
    dbOk := true, ftsMatch := fun _ _ => true }

/-- Witness for C6 at the concrete knowledge base. -/
theorem vector_search_pipeline_shape_witness :
    searchSimilarVulnerabilities sampleKB "sql injection" "" "python" "" 1
      = enrichHits sampleKB ((sortBy bySimilarityDesc
          (([((0 : ℤ), (0 : ℚ))]).filterMap
            (hitOfNeighbor sampleKB "python" ""))).take 1) :=
  vector_search_pipeline_shape sampleKB "sql injection" "" "python" "" 1
    [1] [((0 : ℤ), 0)] rfl rfl rfl (by decide) rfl rfl

/-! ## Stage 3 — CVE-enhanced remediation (per finding)

Embedding of `_enhance_with_cve_and_generate_diff` (`analyzer.py` lines
1066–1119) and `_generate_cve_enhanced_remediation` (lines 1121–1159).
`retrieval` models the `generate_diff_context_for_ai` call: if it
raises, the outer `except` keeps the original vulnerability unchanged.
`reason ctx` models the `_call_ai_api` call on the prompt built from the
finding and the retrieved context `ctx`: its failure is caught inside
`_generate_cve_enhanced_remediation`, which then returns the original
remediation. -/

/-- Stage 3 enhancement of a single vulnerability. -/
def enhanceVulnerability (retrieval : Except Unit String)
    (reason : String → Except Unit String) (v : VulnerabilityInfo) :
    VulnerabilityInfo :=
  match retrieval with
  | .error _ => v
  | .ok ctx =>
    { v with remediation :=
        match reason ctx with
        | .ok text => text
        | .error _ => v.remediation }

/-- C7: a Stage 3-processed finding differs from the Stage 2 finding in
at most the remediation field (title, severity, classification id,
description, location, code snippet, impact and confidence are those of
the input, by structure-update); retrieval failure returns the finding
unchanged, reasoning failure keeps the original remediation, and joint
success replaces the remediation by the enhanced text. -/
theorem stage3_modifies_only_remediation (retrieval : Except Unit String)
    (reason : String → Except Unit String) (v : VulnerabilityInfo)
    (ctx enhanced : String) :
    enhanceVulnerability retrieval reason v
        = { v with remediation :=
              (enhanceVulnerability retrieval reason v).remediation }
    ∧ enhanceVulnerability (.error ()) reason v = v
    ∧ (enhanceVulnerability (.ok ctx) (fun _ => .error ()) v).remediation
        = v.remediation
    ∧ (enhanceVulnerability (.ok ctx) (fun _ => .ok enhanced) v).remediation
        = enhanced := by
  refine ⟨?_, rfl, rfl, rfl⟩
  cases retrieval with
  | error e => rfl
  | ok c => rfl

/-! ## Pipeline orchestrator

Embedding of `AIAnalyzer.analyze_files_strict_three_stage`
(`analyzer.py` lines 1163–1273).  Stage 2's per-file deep analysis is
the oracle `deepAnalysis` (`None` models both a parse failure and a
raising gateway call, either of which drops the file). -/

/-- `_stage2_detailed_vulnerability_analysis`: per-file deep analysis;
a failing file is dropped from the output. -/
def stage2DetailedAnalysis
    (deepAnalysis : FileAnalysisInput → Option AIAnalysisResult)
    (highRiskInputs : List FileAnalysisInput) : List AIAnalysisResult :=
  highRiskInputs.filterMap deepAnalysis

/-- `_enhance_with_cve_and_generate_diff` at the file level: enhance
every vulnerability, tag the reasoning and summary strings. -/
def enhanceWithCveAndGenerateDiff
    (retrieve : VulnerabilityInfo → Except Unit String)
    (reason : VulnerabilityInfo → String → Except Unit String)
    (res : AIAnalysisResult) : AIAnalysisResult :=
  { res with
    vulnerabilities := res.vulnerabilities.map
      (fun v => enhanceVulnerability (retrieve v) (reason v) v)
    analysisReasoning := res.analysisReasoning ++ " [CVE增强]"
    summary := res.summary ++ " (已结合CVE知识库增强)" }

/-- `_stage3_cve_enhanced_diff_generation`: files without
vulnerabilities pass through unchanged. -/
def stage3CveEnhancedDiffGeneration
    (retrieve : VulnerabilityInfo → Except Unit String)
    (reason : VulnerabilityInfo → String → Except Unit String)
    (detailedResults : List AIAnalysisResult) : List AIAnalysisResult :=
  detailedResults.map (fun res =>
    if res.vulnerabilities.isEmpty then res
    else enhanceWithCveAndGenerateDiff retrieve reason res)

/-- The `summary` section of the returned dict. -/
structure StrictThreeStageSummary where
  totalFilesAnalyzed : ℕ
  highRiskFilesFound : ℕ
  vulnerabilitiesDiscovered : ℕ
  cveReferencesGenerated : ℕ
  totalAnalysisTime : ℚ
  averageTimePerFile : ℚ
  deriving DecidableEq

/-- The dict returned by `analyze_files_strict_three_stage`. -/
structure StrictThreeStageResult where
  stage1TotalFiles : ℕ
  stage1HighRiskFiles : ℕ
  stage1Results : List AIAnalysisResult
  stage2AnalyzedFiles : ℕ
  stage2Results : List AIAnalysisResult
  stage3EnhancedFiles : ℕ
  stage3Results : List AIAnalysisResult
  summary : StrictThreeStageSummary
  deriving DecidableEq

/-- `AIAnalyzer.analyze_files_strict_three_stage`.  `elapsed` stands for
the measured wall-clock duration.  `total_cve_links` counts
vulnerabilities with a truthy `cve_id` attribute; `VulnerabilityInfo`
declares no such attribute (only `cwe_id`), so the `hasattr` test is
always false and the count is 0. -/
def analyzeFilesStrictThreeStage (gateway : ℕ → Stage1Response)
    (deepAnalysis : FileAnalysisInput → Option AIAnalysisResult)
    (retrieve : VulnerabilityInfo → Except Unit String)
    (reason : VulnerabilityInfo → String → Except Unit String)
    (elapsed : ℚ) (fileInputs : List FileAnalysisInput) (bs : ℕ)
    (threshold : ℚ) : StrictThreeStageResult :=
  let stage1Results := stage1BatchRiskScoring gateway fileInputs bs
  let highRisk := highRiskFiles stage1Results threshold
  let stage2Results :=
    if highRisk.isEmpty then []
    else stage2DetailedAnalysis deepAnalysis
      (selectHighRiskInputs stage1Results fileInputs threshold)
  let stage3Results :=
    if stage2Results.isEmpty then []
    else stage3CveEnhancedDiffGeneration retrieve reason stage2Results
  let totalVulnerabilities :=
    (stage3Results.map (fun r => r.vulnerabilities.length)).sum
  let totalCveLinks : ℕ := 0
  { stage1TotalFiles := fileInputs.length
    stage1HighRiskFiles := highRisk.length
    stage1Results := stage1Results
    stage2AnalyzedFiles := stage2Results.length
    stage2Results := stage2Results
    stage3EnhancedFiles := stage3Results.length
    stage3Results := stage3Results
    summary :=
      { totalFilesAnalyzed := fileInputs.length
        highRiskFilesFound := highRisk.length
        vulnerabilitiesDiscovered := totalVulnerabilities
        cveReferencesGenerated := totalCveLinks
        totalAnalysisTime := elapsed
        averageTimePerFile :=
          if fileInputs.isEmpty then 0 else elapsed / fileInputs.length } }

/-- The keys of the dict returned by `analyze_files_strict_three_stage`
(`analyzer.py` lines 1247–1273), including the keys of its nested
sections. -/
def strictThreeStageResultKeys : List String :=
  ["analysis_type",
   "stage1_batch_risk_assessment", "total_files", "high_risk_files",
   "risk_threshold", "results",
   "stage2_detailed_vulnerability_analysis", "analyzed_files",
   "stage3_cve_enhanced_diff_generation", "enhanced_files",
   "summary", "total_files_analyzed", "high_risk_files_found",
   "vulnerabilities_discovered", "cve_references_generated",
   "total_analysis_time", "average_time_per_file"]

/-- Whether `needle` occurs as a contiguous run inside `hay`. -/
def hasSubstring (needle : List Char) : List Char → Bool
  | [] => needle.isEmpty
  | c :: rest => needle.isPrefixOf (c :: rest) || hasSubstring needle rest

/-- Whether a dict key mentions degradation. -/
def mentionsDegraded (s : String) : Bool :=
  hasSubstring "degraded".toList s.toList

/-- C8, counterexample: the result dict of the pipeline entrypoint is
not annotated with counts of degraded batches, files or findings — no
key of the returned dict (its nested sections included) so much as
mentions degradation, so callers cannot assess result quality from the
returned `PipelineResult` as the claim asserts. -/
theorem pipeline_result_lacks_degradation_counts :
    strictThreeStageResultKeys.all (fun k => !(mentionsDegraded k)) = true := by
  decide

/-- C8 (amended): the pipeline entrypoint is a total function — every
stage failure has already been converted into degraded values or
dropped items inside the stages — and on an empty candidate list it
returns a result whose per-stage lists are all empty and whose summary
counters are all zero; the summary carries plain counters only, no
degraded-batch/file/finding counts. -/
theorem pipeline_empty_input_result (gateway : ℕ → Stage1Response)
    (deepAnalysis : FileAnalysisInput → Option AIAnalysisResult)
    (retrieve : VulnerabilityInfo → Except Unit String)
    (reason : VulnerabilityInfo → String → Except Unit String)
    (elapsed : ℚ) (bs : ℕ) (threshold : ℚ) :
    analyzeFilesStrictThreeStage gateway deepAnalysis retrieve reason
        elapsed [] bs threshold
      = { stage1TotalFiles := 0, stage1HighRiskFiles := 0
          stage1Results := [], stage2AnalyzedFiles := 0
          stage2Results := [], stage3EnhancedFiles := 0
          stage3Results := []
          summary :=
            { totalFilesAnalyzed := 0, highRiskFilesFound := 0
              vulnerabilitiesDiscovered := 0, cveReferencesGenerated := 0
              totalAnalysisTime := elapsed, averageTimePerFile := 0 } } := by
  cases bs with
  | zero => rfl
  | succ n => rfl

/-! ## Persistence of the vector index

Embedding of `_save_vector_index` (`cve_knowledge_base.py` lines
1221–1236) as the sequence of file-system operations it performs, plus
the spec's persistence discipline for comparison. -/

/-- Default `vector_db_path` from `CVEfixesKnowledgeBase.__init__`. -/
def vectorDbPath : String := "/home/moyu/Code/Project/CodeVigil/data/vector_db"

/-- `self.vector_index_path = os.path.join(vector_db_path, "cve_index.bin")`. -/
def vectorIndexPath : String := vectorDbPath ++ "/cve_index.bin"

/-- `self.vector_metadata_path = os.path.join(vector_db_path,
"cve_metadata.json")`. -/
def vectorMetadataPath : String := vectorDbPath ++ "/cve_metadata.json"

/-- A file-system operation performed during persistence. -/
inductive FsOp where
  | write (path : String) (content : ℕ)
  | rename (src dst : String)
  deriving DecidableEq

/-- The operations performed by `_save_vector_index`: a direct
`faiss.write_index(self.index, self.vector_index_path)` followed by a
direct `open(self.vector_metadata_path, "w")` + `json.dump`.  Contents
are abstract version numbers. -/
def saveVectorIndexTrace (indexContent metaContent : ℕ) : List FsOp :=
  [.write vectorIndexPath indexContent,
   .write vectorMetadataPath metaContent]

/-- Interpret one operation over file contents. -/
def applyFsOp (fs : String → ℕ) : FsOp → (String → ℕ)
  | .write p c => fun q => if q == p then c else fs q
  | .rename src dst => fun q => if q == dst then fs src else fs q

/-- Interpret a trace over file contents. -/
def applyFsOps : List FsOp → (String → ℕ) → (String → ℕ)
  | [], fs => fs
  | op :: rest, fs => applyFsOps rest (applyFsOp fs op)

/-- The spec's persistence discipline ("write to temp, then swap"),
stated of a trace: writes touch only non-final (temporary) paths, and a
final path becomes visible only as the destination of a rename. -/
def atomicPersistTrace (finalPaths : List String) (trace : List FsOp) :
    Bool :=
  trace.all (fun op =>
    match op with
    | .write p _ => !(finalPaths.contains p)
    | .rename src _ => !(finalPaths.contains src))

/-- C9, counterexample: `_save_vector_index` writes both the index file
and the metadata sidecar directly at their final paths — no temporary
location and no swap — so its operation trace violates the spec's
write-to-temp-then-swap discipline. -/
theorem save_vector_index_writes_in_place :
    atomicPersistTrace [vectorIndexPath, vectorMetadataPath]
      (saveVectorIndexTrace 1 1) = false := by decide

/-- C9 (amended): the rebuild persistence is not atomic — the index and
its sidecar are each written directly in place — and an interruption
between the two writes leaves the new index visible beside the old
(inconsistent) sidecar; only after both writes are index and sidecar
consistent. -/
theorem save_vector_index_interruption_effect (fs : String → ℕ)
    (indexNew metaNew : ℕ) :
    atomicPersistTrace [vectorIndexPath, vectorMetadataPath]
        (saveVectorIndexTrace indexNew metaNew) = false
    ∧ applyFsOps ((saveVectorIndexTrace indexNew metaNew).take 1) fs
        vectorIndexPath = indexNew
    ∧ applyFsOps ((saveVectorIndexTrace indexNew metaNew).take 1) fs
        vectorMetadataPath = fs vectorMetadataPath
    ∧ applyFsOps (saveVectorIndexTrace indexNew metaNew) fs
        vectorIndexPath = indexNew
    ∧ applyFsOps (saveVectorIndexTrace indexNew metaNew) fs
        vectorMetadataPath = metaNew :=
  ⟨rfl, rfl, rfl, rfl, rfl⟩

/-! ## Adding to the vector index (C10)

Embedding of `add_to_vector_index` (`cve_knowledge_base.py` lines
1185–1219).  `encodeResult` models `embedding_model.encode` (consulted
only when the entry carries no vector); `addSucceeds` models the
`index.add` call, which mutates nothing when it raises;
`_save_vector_index` catches its own exceptions and never changes the
in-memory state. -/

/-- `VectorizedCVE` dataclass (fields reaching index and sidecar). -/
structure VectorizedCVE where
  id : String
  textContent : String
  vector : Option (List ℚ)
  programmingLanguage : String
  severity : String
  deriving DecidableEq

/-- In-memory vector-index state: the FAISS index contents in insertion
order plus the metadata sidecar lists (`metadata["cve_ids"]`,
`metadata["vectors"]`). -/
structure VectorIndexState where
  indexVectors : List (List ℚ)
  cveIds : List String
  metaVectors : List MetaItem
  deriving DecidableEq

/-- `CVEfixesKnowledgeBase.add_to_vector_index`. -/
def addToVectorIndex (available hasIndex hasModel : Bool)
    (encodeResult : Except Unit (List ℚ)) (addSucceeds : Bool)
    (st : VectorIndexState) (v : VectorizedCVE) :
    Bool × VectorIndexState :=
  if !available || !hasIndex || !hasModel then (false, st)
  else
    match (match v.vector with
           | some vec => Except.ok vec
           | none => encodeResult) with
    | .error _ => (false, st)
    | .ok vec =>
      if !addSucceeds then (false, st)
      else
        (true,
         { indexVectors := st.indexVectors ++ [vec]
           cveIds := st.cveIds ++ [v.id]
           metaVectors := st.metaVectors ++
             [{ id := v.id, programmingLanguage := v.programmingLanguage
                severity := v.severity }] })

/-- C10: if the index's vector count equals the sidecar id count before
a call, then after any call the counts still agree; a successful call
appends exactly one vector and the entry's id at the same (final)
position, and a failed call leaves the state unchanged — the positional
correspondence `_vector_search` relies on. -/
theorem add_to_vector_index_alignment (available hasIndex hasModel : Bool)
    (encodeResult : Except Unit (List ℚ)) (addSucceeds : Bool)
    (st st' : VectorIndexState) (v : VectorizedCVE) (ok : Bool)
    (hinv : st.indexVectors.length = st.cveIds.length)
    (hrun : addToVectorIndex available hasIndex hasModel encodeResult
      addSucceeds st v = (ok, st')) :
    st'.indexVectors.length = st'.cveIds.length
    ∧ (ok = true → ∃ vec,
        st'.indexVectors = st.indexVectors ++ [vec]
        ∧ st'.cveIds = st.cveIds ++ [v.id]
        ∧ st'.indexVectors.length = st.indexVectors.length + 1)
    ∧ (ok = false → st' = st) := by
  unfold addToVectorIndex at hrun
  split at hrun
  · rw [Prod.mk.injEq] at hrun
    rcases hrun with ⟨hok, hst⟩
    subst hok
    subst hst
    exact ⟨hinv, fun h => absurd h (by simp), fun _ => rfl⟩
  · split at hrun
    · rw [Prod.mk.injEq] at hrun
      rcases hrun with ⟨hok, hst⟩
      subst hok
      subst hst
      exact ⟨hinv, fun h => absurd h (by simp), fun _ => rfl⟩
    · split at hrun
      · rw [Prod.mk.injEq] at hrun
        rcases hrun with ⟨hok, hst⟩
        subst hok
        subst hst
        exact ⟨hinv, fun h => absurd h (by simp), fun _ => rfl⟩
      · rw [Prod.mk.injEq] at hrun
        rcases hrun with ⟨hok, hst⟩
        subst hok
        subst hst
        refine ⟨?_, ?_, ?_⟩
        · simp [List.length_append, hinv]
        · intro _
          refine ⟨_, rfl, rfl, ?_⟩
          simp [List.length_append]
        · intro h
          exact absurd h (by simp)

/-- A concrete vectorized entry carrying its own vector. -/
def sampleVectorized : VectorizedCVE :=
  { id := "CVE-2021-1234", textContent := "SQL injection fix"
    vector := some [1], programmingLanguage := "python"
    severity := "high" }

/-- The empty in-memory index state. -/
def emptyVectorState : VectorIndexState :=
  { indexVectors := [], cveIds := [], metaVectors := [] }

/-- The state after adding `sampleVectorized` to the empty state. -/
def addedVectorState : VectorIndexState :=
  { indexVectors := [[1]]
    cveIds := ["CVE-2021-1234"]
    metaVectors := [{ id := "CVE-2021-1234", programmingLanguage := "python"
                      severity := "high" }] }

/-- Witness for C10 at a concrete successful call. -/
theorem add_to_vector_index_alignment_witness :
    addedVectorState.indexVectors.length = addedVectorState.cveIds.length
    ∧ (true = true → ∃ vec,
        addedVectorState.indexVectors
            = emptyVectorState.indexVectors ++ [vec]
        ∧ addedVectorState.cveIds
            = emptyVectorState.cveIds ++ [sampleVectorized.id]
        ∧ addedVectorState.indexVectors.length
            = emptyVectorState.indexVectors.length + 1)
    ∧ (true = false → addedVectorState = emptyVectorState) :=
  add_to_vector_index_alignment true true true (.ok [1]) true
    emptyVectorState addedVectorState sampleVectorized true rfl rfl

end CodeVigil
